import Mathlib

/-!
Verification of the prediction-to-decision pipeline of the Kenyan Agro Market
price-forecast service (`src/price_api/app.py`).

The embedding below translates the pure core of the service into Lean:

* the business-rule constants (`CROP_THRESHOLDS`, `ALLOWED_COMMODITIES`);
* input normalization (`normalize_input`, Python `str.title` / `str.capitalize`);
* the feature-vector builder (`build_feature_vector`) over abstract artifacts
  (feature columns, categorical columns and per-column vocabularies);
* the ensemble reduction (`rf_confidence`) with numpy's default linear
  percentile interpolation (`percentile`);
* the `/predict` sanity check, the `/recommendations` rule bands and the
  `/micro-market` synthesis, including Python's banker rounding (`pyRound`)
  and the decimal formatting used inside f-strings (`fmtQ`).

Prices and percentages are modelled as exact rationals.
-/

namespace PriceApi

/-! ## Python string primitives -/

/-- Python `str.lower()` (ASCII): every character lower-cased. -/
def pyLower (s : String) : String := ⟨s.data.map Char.toLower⟩

/-- Python `str.strip()`: leading and trailing whitespace removed. -/
def pyStrip (s : String) : String :=
  ⟨((s.data.dropWhile Char.isWhitespace).reverse.dropWhile Char.isWhitespace).reverse⟩

/-- Python `str.capitalize()`: first character upper-cased, the rest lower-cased. -/
def pyCapitalize (s : String) : String :=
  match s.data with
  | [] => ""
  | c :: cs => ⟨c.toUpper :: cs.map Char.toLower⟩

/-- Auxiliary scanner for `pyTitle`; the boolean records whether the previous
character was alphabetic. -/
def pyTitleAux : List Char → Bool → List Char
  | [], _ => []
  | c :: cs, prevAlpha =>
    if c.isAlpha then
      (if prevAlpha then c.toLower else c.toUpper) :: pyTitleAux cs true
    else
      c :: pyTitleAux cs false

/-- Python `str.title()`: the first letter of every alphabetic run is
upper-cased, the remaining letters of the run lower-cased. -/
def pyTitle (s : String) : String := ⟨pyTitleAux s.data false⟩

/-! ## Business-rule constants (app.py lines 27-38) -/

/-- `CROP_THRESHOLDS`: the locked per-commodity price ceilings (KES per kg). -/
def CROP_THRESHOLDS : List (String × ℕ) :=
  [("cabbage", 126), ("kale", 50), ("onion", 13), ("potatoes", 50), ("tomatoes", 64)]

/-- `ALLOWED_COMMODITIES = set(CROP_THRESHOLDS.keys())`. -/
def ALLOWED_COMMODITIES : List String := CROP_THRESHOLDS.map Prod.fst

/-- `CROP_THRESHOLDS[c]` as a partial lookup. -/
def threshold_lookup (c : String) : Option ℕ :=
  CROP_THRESHOLDS.lookup c

/-- `CROP_THRESHOLDS.get(c, d)`: lookup with a default (app.py line 455). -/
def thresholdGetD (c : String) (d : ℕ) : ℕ :=
  (threshold_lookup c).getD d

/-! ## Rounding and decimal formatting -/

/-- Round-half-to-even on rationals, the semantics of Python's `round` to an
integer. -/
def roundHalfEven (y : ℚ) : ℤ :=
  if y - ⌊y⌋ < 1/2 then ⌊y⌋
  else if 1/2 < y - ⌊y⌋ then ⌊y⌋ + 1
  else if ⌊y⌋ % 2 = 0 then ⌊y⌋ else ⌊y⌋ + 1

/-- Python `round(x, n)` on exact rationals: banker's rounding at `n` decimal
places. -/
def pyRound (x : ℚ) (n : ℕ) : ℚ :=
  (roundHalfEven (x * 10 ^ n) : ℚ) / 10 ^ n

/-- Decimal rendering of a quantity given in hundredths, matching Python's
`str` on the corresponding float (1280 hundredths renders as "12.8",
2000 as "20.0", 1235 as "12.35"). -/
def fmtN (n : ℕ) : String :=
  let ip := n / 100
  let fp := n % 100
  if fp = 0 then toString ip ++ ".0"
  else if fp % 10 = 0 then toString ip ++ "." ++ toString (fp / 10)
  else toString ip ++ "." ++ (if fp < 10 then "0" else "") ++ toString fp

/-- Decimal rendering of a nonnegative rational with at most two decimal
places, matching Python's `str` on the corresponding float (`9.0` renders as
"9.0", `12.8` as "12.8", `12.35` as "12.35"). -/
def fmtQ (q : ℚ) : String := fmtN (q * 100).num.toNat

/-! ## Error taxonomy (HTTP 400 rejections of the core) -/

/-- The deterministic validation failures of the core endpoints. -/
inductive ApiError where
  | unsupportedCommodity : ApiError
  | invalidPreviousPrice : ApiError
  | unknownCategoryValue (col : String) : ApiError
deriving DecidableEq, Repr

/-! ## Requests -/

/-- `/predict` request body (`PredictRequest`). -/
structure PredictRequest where
  date : String
  admin1 : String
  market : String
  commodity : String
  pricetype : String
  previous_month_price : ℚ

/-- `/recommendations` request body (`RecommendationRequest`). -/
structure RecommendationRequest where
  commodity : String
  market : String
  admin1 : String
  predicted_price : ℚ
  previous_price : ℚ
  pricetype : String

/-! ## Input normalization (app.py lines 83-96) -/

/-- `normalize_input`: commodity is trimmed and title-cased, pricetype trimmed
and capitalized, while market and admin1 are kept as the trimmed verbatim
strings. Returns `(commodity, market, admin1, pricetype)` as in the source. -/
def normalize_input (req : PredictRequest) : String × String × String × String :=
  (pyTitle (pyStrip req.commodity), pyStrip req.market, pyStrip req.admin1,
    pyCapitalize (pyStrip req.pricetype))

/-! ## Feature-vector builder (app.py lines 101-133) -/

/-- A value held in the request's key→value map: either a number or a raw
categorical string awaiting encoding. -/
inductive FVal where
  | num (q : ℚ) : FVal
  | str (s : String) : FVal
deriving DecidableEq, Repr

/-- The artifact set loaded at startup: the model's column order, the list of
categorical columns, and each column's trained vocabulary (`classes_`). -/
structure Artifacts where
  feature_columns : List String
  categorical_columns : List String
  classes : String → List String

/-- `LabelEncoder.transform` on a single value: the index of the string in the
trained class list, failing (`ValueError`) outside the vocabulary. A numeric
value never matches a string vocabulary. -/
def transform (classes : List String) (v : FVal) : Option ℕ :=
  match v with
  | .str s => classes.indexOf? s
  | .num _ => none

/-- The initial `data` dictionary of `build_feature_vector`: the lag price and
the four normalized categorical fields, in insertion order. -/
def initData (req : PredictRequest) : List (String × FVal) :=
  let n := normalize_input req
  [("price_lag_1", .num req.previous_month_price),
   ("commodity", .str n.1),
   ("market", .str n.2.1),
   ("admin1", .str n.2.2.1),
   ("pricetype", .str n.2.2.2)]

/-- `data[k] = v`: replace the value stored under an existing key. -/
def setKey (d : List (String × FVal)) (k : String) (v : FVal) :
    List (String × FVal) :=
  d.map fun p => if p.1 = k then (k, v) else p

/-- The encoding loop of `build_feature_vector`: for each declared categorical
column present in `data`, replace its value by the integer code, failing with
`UnknownCategoryValue` on the first value outside the vocabulary. -/
def encodeCats (art : Artifacts) :
    List String → List (String × FVal) → Except ApiError (List (String × FVal))
  | [], d => .ok d
  | col :: rest, d =>
    match d.lookup col with
    | none => encodeCats art rest d
    | some v =>
      match transform (art.classes col) v with
      | none => .error (.unknownCategoryValue col)
      | some code => encodeCats art rest (setKey d col (.num code))

/-- `build_feature_vector`: encode the categorical fields, then project the
key→value map onto the artifact's fixed column order, defaulting any column
not explicitly set to 0. -/
def build_feature_vector (art : Artifacts) (req : PredictRequest) :
    Except ApiError (List FVal) :=
  (encodeCats art art.categorical_columns (initData req)).map fun d =>
    art.feature_columns.map fun col => (d.lookup col).getD (.num 0)

/-! ## Ensemble reduction (app.py lines 138-144) -/

/-- Linear interpolation between order statistics: value of a sorted sample
list at real-valued index `i` (numpy's default percentile interpolation).
With `k = ⌊i⌋` this is `s[k] + (i − k)·(s[k+1] − s[k])`, the upper sample
falling back to `s[k]` at the right edge. -/
def interpAt (s : List ℚ) (i : ℚ) : ℚ :=
  s.getD (⌊i⌋).toNat 0 +
    (i - ((⌊i⌋).toNat : ℚ)) *
      (s.getD ((⌊i⌋).toNat + 1) (s.getD (⌊i⌋).toNat 0) - s.getD (⌊i⌋).toNat 0)

/-- `np.percentile(l, p)` with the default linear interpolation: sort the
samples and interpolate at index `p·(n−1)/100`. -/
def percentile (l : List ℚ) (p : ℚ) : ℚ :=
  interpAt (List.insertionSort (· ≤ ·) l) (p * ((l.length : ℚ) - 1) / 100)

/-- The reduced ensemble estimate (`EnsembleEstimate` of the spec). -/
structure EnsembleEstimate where
  mean : ℚ
  low : ℚ
  high : ℚ
  confidence : ℚ
deriving Repr

/-- `rf_confidence`: mean of the per-tree predictions, 5th/95th percentile
bounds, and the hard-coded coverage constant 0.90. -/
def rf_confidence (preds : List ℚ) : EnsembleEstimate :=
  { mean := preds.sum / preds.length
    low := percentile preds 5
    high := percentile preds 95
    confidence := 9/10 }

/-! ## `/predict` sanity check (app.py lines 202-238) -/

/-- The commodity gate shared by `/predict`, `/recommendations` and
`/micro-market`: the trimmed, lower-cased commodity must be one of the five
canonical names. No alias resolution is performed. -/
def commodityAllowed (c : String) : Bool :=
  ALLOWED_COMMODITIES.contains (pyLower (pyStrip c))

/-- The commodity branch of the encode pipeline of `/predict`: validate the
commodity against the allowed set, then strictly encode its trimmed,
title-cased form against the trained vocabulary. -/
def encode_commodity (vocab : List String) (c : String) : Except ApiError ℕ :=
  if commodityAllowed c then
    match vocab.indexOf? (pyTitle (pyStrip c)) with
    | some code => .ok code
    | none => .error (.unknownCategoryValue "commodity")
  else
    .error .unsupportedCommodity

/-- The threshold sanity rule of `/predict`: the flag is a strict comparison
against the commodity ceiling, and the accompanying note. -/
def predictAssess (threshold : ℕ) (pred : ℚ) : Bool × String :=
  let unreasonable : Bool := pred > (threshold : ℚ)
  (unreasonable,
    if unreasonable then
      " Unreasonable: exceeds normal threshold of " ++ toString threshold ++ " per kg."
    else
      "Prediction within normal range.")

/-! ## `/recommendations` (app.py lines 340-424) -/

/-- `RecommendationResponse`: the advice produced by `/recommendations`. -/
structure Recommendation where
  commodity : String
  market : String
  recommendations : List String
  action_type : String
  confidence : String
  rationale : String
deriving Repr

/-- `get_recommendations`: validate the commodity and the previous price, then
classify `pct_change = (predicted − previous)/previous × 100` through the
top-to-bottom bands, and append the threshold-proximity warning when the
predicted price exceeds 80% of the commodity ceiling. -/
def get_recommendations (req : RecommendationRequest) :
    Except ApiError Recommendation :=
  let c := pyLower (pyStrip req.commodity)
  if commodityAllowed req.commodity then
    if req.previous_price ≤ 0 then
      .error .invalidPreviousPrice
    else
      let price_change := (req.predicted_price - req.previous_price) / req.previous_price * 100
      let base :
          List String × String × String × String :=
        if price_change > 10 then
          (["Predicted price increase of " ++ fmtQ (pyRound price_change 1) ++
              "% - consider selling soon",
            "Market conditions favor sellers"] ++
            (if pyLower req.pricetype = "retail" then
              ["Retail prices are high - good time to market your produce"]
             else []),
           "sell", "high",
           "Significant price increase predicted. Selling now or in the near future could maximize returns.")
        else if price_change > 5 then
          (["Moderate price increase of " ++ fmtQ (pyRound price_change 1) ++ "% expected",
            "Consider selling within the next few days"],
           "sell", "medium",
           "Moderate price increase expected. Timing the market in the next week could be beneficial.")
        else if price_change < -10 then
          (["Predicted price drop of " ++ fmtQ (pyRound |price_change| 1) ++
              "% - consider holding",
            "Wait for better market conditions before selling",
            "Consider storage options if possible"],
           "hold", "high",
           "Significant price drop expected. Holding and waiting for price recovery may be more profitable.")
        else if price_change < -5 then
          (["Moderate price decrease of " ++ fmtQ (pyRound |price_change| 1) ++ "% expected",
            "Monitor market closely over the next few days"],
           "hold", "medium",
           "Moderate price decrease expected. Monitor market conditions before making selling decisions.")
        else
          (["Stable prices expected",
            "No urgent action required - normal market conditions"],
           "hold", "medium",
           "Price stability expected. Normal selling patterns can continue.")
      let threshold := thresholdGetD c 0
      let recs :=
        if req.predicted_price > (threshold : ℚ) * (8/10) then
          base.1 ++ ["Price approaching threshold limit (" ++ toString threshold ++ " KES/kg)"]
        else base.1
      .ok { commodity := req.commodity
            market := req.market
            recommendations := recs
            action_type := base.2.1
            confidence := base.2.2.1
            rationale := base.2.2.2 }
  else
    .error .unsupportedCommodity

/-! ## `/micro-market` (app.py lines 430-505) -/

/-- One synthesized nearby market. -/
structure NearbyMarket where
  market_name : String
  distance_km : ℚ
  estimated_price : ℚ
  market_type : String
deriving DecidableEq, Repr

instance : Inhabited NearbyMarket :=
  ⟨{ market_name := "", distance_km := 0, estimated_price := 0, market_type := "" }⟩

/-- `MicroMarketResponse` restricted to its computed core. -/
structure MicroOut where
  commodity : String
  region : String
  nearby_markets : List NearbyMarket
  average_price : ℚ
  min_price : ℚ
  max_price : ℚ
  price_variance : ℚ
  recommended_market : String
  market_comparison : String
deriving Repr

/-- Python `min` over a nonempty list (0 on the empty list, unreachable here). -/
def pyMin (l : List ℚ) : ℚ :=
  match l with
  | [] => 0
  | x :: xs => xs.foldl min x

/-- Python `max` over a nonempty list (0 on the empty list, unreachable here). -/
def pyMax (l : List ℚ) : ℚ :=
  match l with
  | [] => 0
  | x :: xs => xs.foldl max x

/-- `get_micro_market_forecast`: validate the commodity, look the base price up
in the threshold table with default 50, synthesize the three deterministic
markets, and derive the summary statistics and the comparison string. -/
def get_micro_market_forecast (commodity region : String) (radius_km : ℚ) :
    Except ApiError MicroOut :=
  let c := pyLower (pyStrip commodity)
  if commodityAllowed commodity then
    let base_price : ℚ := (thresholdGetD c 50 : ℕ)
    let nearby : List NearbyMarket :=
      [{ market_name := region ++ " Central Market"
         distance_km := 0
         estimated_price := pyRound (base_price * (9/10)) 2
         market_type := "wholesale" },
       { market_name := region ++ " Retail Hub"
         distance_km := pyRound (radius_km * (3/10)) 1
         estimated_price := pyRound (base_price * (11/10)) 2
         market_type := "retail" },
       { market_name := "Near " ++ region ++ " Market"
         distance_km := pyRound (radius_km * (6/10)) 1
         estimated_price := pyRound (base_price * (95/100)) 2
         market_type := "mixed" }]
    let prices := nearby.map (·.estimated_price)
    let avg_price := prices.sum / prices.length
    let min_price := pyMin prices
    let max_price := pyMax prices
    let price_spread := max_price - min_price
    .ok { commodity := commodity
          region := region
          nearby_markets := nearby
          average_price := pyRound avg_price 2
          min_price := pyRound min_price 2
          max_price := pyRound max_price 2
          price_variance := pyRound (max_price - min_price) 2
          recommended_market := (nearby.headD default).market_name
          market_comparison :=
            if price_spread > 10 then
              "High price variance (" ++ fmtQ (pyRound price_spread 2) ++
                " KES) across nearby markets. Shopping around could save money."
            else
              "Relatively stable prices across nearby markets." }
  else
    .error .unsupportedCommodity

/-! ## General lemmas: sorted interpolation -/

/-- In a sorted list, `getD` at a smaller in-bounds index is at most `getD` at
a larger in-bounds index. -/
lemma sorted_getD_mono {s : List ℚ} (hs : List.Sorted (· ≤ ·) s) {a b : ℕ}
    (hab : a ≤ b) (hb : b < s.length) : s.getD a 0 ≤ s.getD b 0 := by
  rw [List.getD_eq_getElem s 0 (lt_of_le_of_lt hab hb), List.getD_eq_getElem s 0 hb]
  exact hs.rel_get_of_le (a := ⟨a, lt_of_le_of_lt hab hb⟩) (b := ⟨b, hb⟩) hab

/-- Linear interpolation over a sorted sample list is monotone in the index. -/
lemma interpAt_mono {s : List ℚ} (hs : List.Sorted (· ≤ ·) s)
    {i j : ℚ} (hi0 : 0 ≤ i) (hij : i ≤ j) (hj : j ≤ (s.length : ℚ) - 1) :
    interpAt s i ≤ interpAt s j := by
  have hj0 : 0 ≤ j := le_trans hi0 hij
  have hfi : 0 ≤ ⌊i⌋ := Int.floor_nonneg.mpr hi0
  have hfj : 0 ≤ ⌊j⌋ := Int.floor_nonneg.mpr hj0
  have hkiq : ((⌊i⌋.toNat : ℚ)) ≤ i := by
    have := Int.floor_le i
    rw [show ((⌊i⌋.toNat : ℚ)) = ((⌊i⌋.toNat : ℤ) : ℚ) by push_cast; ring,
      Int.toNat_of_nonneg hfi]
    exact this
  have hkiq2 : i < (⌊i⌋.toNat : ℚ) + 1 := by
    have := Int.lt_floor_add_one i
    rw [show ((⌊i⌋.toNat : ℚ)) = ((⌊i⌋.toNat : ℤ) : ℚ) by push_cast; ring,
      Int.toNat_of_nonneg hfi]
    exact_mod_cast this
  have hkjq : ((⌊j⌋.toNat : ℚ)) ≤ j := by
    have := Int.floor_le j
    rw [show ((⌊j⌋.toNat : ℚ)) = ((⌊j⌋.toNat : ℤ) : ℚ) by push_cast; ring,
      Int.toNat_of_nonneg hfj]
    exact this
  have hn : 1 ≤ s.length := by
    rcases Nat.eq_zero_or_pos s.length with h | h
    · exfalso; rw [h] at hj; push_cast at hj; linarith
    · exact h
  have hkjn : ⌊j⌋.toNat < s.length := by
    have h1 : ⌊j⌋ ≤ (s.length : ℤ) - 1 := by
      have h2 : j ≤ (((s.length : ℤ) - 1 : ℤ) : ℚ) := by push_cast; linarith
      have h3 := Int.floor_mono h2
      rwa [Int.floor_intCast] at h3
    omega
  have hkij : ⌊i⌋.toNat ≤ ⌊j⌋.toNat := Int.toNat_le_toNat (Int.floor_mono hij)
  unfold interpAt
  rcases eq_or_lt_of_le hkij with heq | hlt
  · rw [← heq]
    have hlohi : s.getD (⌊i⌋.toNat) 0 ≤ s.getD (⌊i⌋.toNat + 1) (s.getD (⌊i⌋.toNat) 0) := by
      rcases lt_or_le (⌊i⌋.toNat + 1) s.length with h | h
      · rw [List.getD_eq_getElem s _ h,
          List.getD_eq_getElem s 0 (lt_trans (Nat.lt_succ_self _) h)]
        exact hs.rel_get_of_le (a := ⟨⌊i⌋.toNat, lt_trans (Nat.lt_succ_self _) h⟩)
          (b := ⟨⌊i⌋.toNat + 1, h⟩) (Nat.le_succ _)
      · rw [List.getD_eq_default s _ h]
    nlinarith [mul_nonneg (sub_nonneg.mpr hij) (sub_nonneg.mpr hlohi)]
  · have hki1 : ⌊i⌋.toNat + 1 ≤ ⌊j⌋.toNat := hlt
    have hki1n : ⌊i⌋.toNat + 1 < s.length := lt_of_le_of_lt hki1 hkjn
    set ki := ⌊i⌋.toNat with hki
    set kj := ⌊j⌋.toNat with hkj
    set loi := s.getD ki 0 with hloi
    set hii := s.getD (ki + 1) loi with hhii
    set loj := s.getD kj 0 with hloj
    set hij' := s.getD (kj + 1) loj with hhij
    have h1 : loi ≤ hii := by
      rw [hhii, List.getD_eq_getElem s loi hki1n, hloi,
        List.getD_eq_getElem s 0 (lt_trans (Nat.lt_succ_self ki) hki1n)]
      exact hs.rel_get_of_le (a := ⟨ki, _⟩) (b := ⟨ki + 1, hki1n⟩) (Nat.le_succ ki)
    have h2 : hii ≤ loj := by
      rw [hhii, List.getD_eq_getElem s loi hki1n, hloj, List.getD_eq_getElem s 0 hkjn]
      exact hs.rel_get_of_le (a := ⟨ki + 1, hki1n⟩) (b := ⟨kj, hkjn⟩) hki1
    have h3 : loj ≤ hij' := by
      rcases lt_or_le (kj + 1) s.length with h | h
      · rw [hhij, List.getD_eq_getElem s loj h, hloj,
          List.getD_eq_getElem s 0 (lt_trans (Nat.lt_succ_self kj) h)]
        exact hs.rel_get_of_le (a := ⟨kj, _⟩) (b := ⟨kj + 1, h⟩) (Nat.le_succ kj)
      · rw [hhij, List.getD_eq_default s loj h]
    have hup : loi + (i - (ki : ℚ)) * (hii - loi) ≤ hii := by
      nlinarith [mul_nonneg (sub_nonneg.mpr (le_of_lt hkiq2)) (sub_nonneg.mpr h1)]
    have hdown : loj ≤ loj + (j - (kj : ℚ)) * (hij' - loj) := by
      nlinarith [mul_nonneg (sub_nonneg.mpr hkjq) (sub_nonneg.mpr h3)]
    calc loi + (i - (ki : ℚ)) * (hii - loi) ≤ hii := hup
      _ ≤ loj := h2
      _ ≤ loj + (j - (kj : ℚ)) * (hij' - loj) := hdown

/-- The linearly interpolated percentile is monotone in the percentile rank. -/
lemma percentile_mono (l : List ℚ) {p q : ℚ} (h0 : 0 ≤ p) (hpq : p ≤ q)
    (h100 : q ≤ 100) : percentile l p ≤ percentile l q := by
  rcases eq_or_ne l [] with rfl | hl
  · simp [percentile, interpAt]
  · have hs := List.sorted_insertionSort (· ≤ ·) l
    have hlen : (List.insertionSort (· ≤ ·) l).length = l.length :=
      List.length_insertionSort (· ≤ ·) l
    have hn : 1 ≤ l.length := List.length_pos.mpr hl
    have hn1 : (0 : ℚ) ≤ (l.length : ℚ) - 1 := by
      have : (1 : ℚ) ≤ (l.length : ℚ) := by exact_mod_cast hn
      linarith
    unfold percentile
    apply interpAt_mono hs
    · positivity
    · apply div_le_div_of_nonneg_right ?_ (by norm_num)
      exact mul_le_mul_of_nonneg_right hpq hn1
    · rw [hlen]
      calc q * ((l.length : ℚ) - 1) / 100 ≤ 100 * ((l.length : ℚ) - 1) / 100 := by
            apply div_le_div_of_nonneg_right ?_ (by norm_num)
            exact mul_le_mul_of_nonneg_right h100 hn1
        _ = (l.length : ℚ) - 1 := by ring

/-! ## General lemmas: rounding and formatting -/

/-- Round-half-even is the identity on integers. -/
lemma roundHalfEven_intCast (z : ℤ) : roundHalfEven (z : ℚ) = z := by
  unfold roundHalfEven
  rw [Int.floor_intCast, sub_self]
  norm_num

/-- Evaluation of round-half-even strictly below the half point. -/
lemma roundHalfEven_eq_low {y : ℚ} {f : ℤ} (h1 : (f : ℚ) ≤ y)
    (h2 : y < (f : ℚ) + 1/2) : roundHalfEven y = f := by
  have hf : ⌊y⌋ = f := Int.floor_eq_iff.mpr ⟨h1, by linarith⟩
  unfold roundHalfEven
  rw [hf, if_pos (by linarith)]

/-- Evaluation of round-half-even strictly above the half point. -/
lemma roundHalfEven_eq_high {y : ℚ} {f : ℤ} (h1 : (f : ℚ) + 1/2 < y)
    (h2 : y < (f : ℚ) + 1) : roundHalfEven y = f + 1 := by
  have hf : ⌊y⌋ = f := Int.floor_eq_iff.mpr ⟨by linarith, by linarith⟩
  unfold roundHalfEven
  rw [hf, if_neg (by linarith), if_pos (by linarith)]

/-- `round(x, n)` is the identity on exact `n`-decimal quantities. -/
lemma pyRound_eval {x : ℚ} {n : ℕ} {z : ℤ} (h : x * 10 ^ n = (z : ℚ)) :
    pyRound x n = x := by
  unfold pyRound
  rw [h, roundHalfEven_intCast, ← h]
  field_simp

/-- Evaluation of `round(x, n)` when the scaled value falls strictly below the
half point. -/
lemma pyRound_eval_low {x : ℚ} {n : ℕ} {f : ℤ} (h1 : (f : ℚ) ≤ x * 10 ^ n)
    (h2 : x * 10 ^ n < (f : ℚ) + 1/2) : pyRound x n = (f : ℚ) / 10 ^ n := by
  unfold pyRound
  rw [roundHalfEven_eq_low h1 h2]

/-- Evaluation of `round(x, n)` when the scaled value falls strictly above the
half point. -/
lemma pyRound_eval_high {x : ℚ} {n : ℕ} {f : ℤ} (h1 : (f : ℚ) + 1/2 < x * 10 ^ n)
    (h2 : x * 10 ^ n < (f : ℚ) + 1) : pyRound x n = ((f : ℚ) + 1) / 10 ^ n := by
  unfold pyRound
  rw [roundHalfEven_eq_high h1 h2]
  push_cast
  ring_nf

/-- Evaluation of the decimal formatter through the hundredths count. -/
lemma fmtQ_eval {q : ℚ} {m : ℕ} (h : q * 100 = (m : ℚ)) : fmtQ q = fmtN m := by
  unfold fmtQ
  rw [h, Rat.num_natCast, Int.toNat_natCast]



/-- A successful threshold lookup pins the key to one of the five canonical
commodities and the value to the table entry. -/
lemma threshold_lookup_cases {x : String} {t : ℕ} (h : threshold_lookup x = some t) :
    (x = "cabbage" ∧ t = 126) ∨ (x = "kale" ∧ t = 50) ∨ (x = "onion" ∧ t = 13) ∨
      (x = "potatoes" ∧ t = 50) ∨ (x = "tomatoes" ∧ t = 64) := by
  unfold threshold_lookup CROP_THRESHOLDS at h
  simp only [List.lookup] at h
  repeat' split at h
  all_goals simp_all [beq_iff_eq]

/-- Membership in the allowed set yields a successful lookup. -/
lemma contains_threshold_lookup {x : String}
    (h : ALLOWED_COMMODITIES.contains x = true) :
    ∃ t : ℕ, threshold_lookup x = some t := by
  have hx : x ∈ ALLOWED_COMMODITIES := by
    simpa using h
  unfold ALLOWED_COMMODITIES CROP_THRESHOLDS at hx
  simp only [List.map, List.mem_cons, List.not_mem_nil, or_false] at hx
  rcases hx with rfl | rfl | rfl | rfl | rfl
  exacts [⟨126, by decide⟩, ⟨50, by decide⟩, ⟨13, by decide⟩, ⟨50, by decide⟩,
    ⟨64, by decide⟩]

/-- C3: for each of the five canonical commodities the threshold lookup
returns the fixed table value, and the sanity flag is true exactly when the
mean estimate strictly exceeds the threshold; at equality the prediction is
reasonable with note "Prediction within normal range.". -/
theorem C3_threshold_sanity :
    (threshold_lookup "cabbage" = some 126 ∧ threshold_lookup "kale" = some 50 ∧
      threshold_lookup "onion" = some 13 ∧ threshold_lookup "potatoes" = some 50 ∧
      threshold_lookup "tomatoes" = some 64) ∧
    ∀ (c : String) (t : ℕ) (m : ℚ), threshold_lookup c = some t →
      ((predictAssess t m).1 = true ↔ (t : ℚ) < m) ∧
        (m = (t : ℚ) → (predictAssess t m).1 = false ∧
          (predictAssess t m).2 = "Prediction within normal range.") := by
  constructor
  · exact ⟨by decide, by decide, by decide, by decide, by decide⟩
  · intro c t m _
    unfold predictAssess
    constructor
    · simp
    · intro hm
      subst hm
      simp

theorem C3_witness :
    threshold_lookup "onion" = some 13 ∧
      (predictAssess 13 (13 : ℚ)).1 = false ∧
      (predictAssess 13 (13 : ℚ)).2 = "Prediction within normal range." :=
  ⟨by decide, (C3_threshold_sanity.2 "onion" 13 13 (by decide)).2 rfl⟩

/-- C10: the fallback default 50 of the micro-market base-price lookup is
unreachable: every commodity passing validation has a threshold-table entry,
and the defaulted lookup returns exactly that entry. -/
theorem C10_base_price_default_unreachable :
    ∀ c : String, commodityAllowed c = true →
      ∃ t : ℕ, threshold_lookup (pyLower (pyStrip c)) = some t ∧
        thresholdGetD (pyLower (pyStrip c)) 50 = t := by
  intro c h
  unfold commodityAllowed at h
  obtain ⟨t, ht⟩ := contains_threshold_lookup h
  exact ⟨t, ht, by unfold thresholdGetD; rw [ht]; rfl⟩

theorem C10_witness :
    commodityAllowed " Kale " = true ∧
      ∃ t : ℕ, threshold_lookup (pyLower (pyStrip " Kale ")) = some t ∧
        thresholdGetD (pyLower (pyStrip " Kale ")) 50 = t :=
  ⟨by decide, C10_base_price_default_unreachable " Kale " (by decide)⟩


/-- C6: with a supported commodity, `/recommendations` fails with
`InvalidPreviousPrice` exactly when `previous_price ≤ 0`. -/
theorem C6_invalid_previous_price (req : RecommendationRequest)
    (hc : commodityAllowed req.commodity = true) :
    get_recommendations req = .error .invalidPreviousPrice ↔ req.previous_price ≤ 0 := by
  unfold get_recommendations
  rw [if_pos hc]
  by_cases hp : req.previous_price ≤ 0
  · rw [if_pos hp]
    simp [hp]
  · rw [if_neg hp]
    simp [hp]

theorem C6_witness :
    commodityAllowed "cabbage" = true ∧
      get_recommendations { commodity := "cabbage", market := "Wakulima",
                            admin1 := "Nairobi", predicted_price := 120,
                            previous_price := 0, pricetype := "retail" } =
        Except.error ApiError.invalidPreviousPrice :=
  ⟨by decide,
    (C6_invalid_previous_price _ (by decide)).mpr (by norm_num)⟩


/-- C1: with a supported commodity and positive previous price, the
recommendation's action and confidence follow the percentage-change bands,
evaluated top to bottom with first match winning. -/
theorem C1_recommendation_bands (req : RecommendationRequest) (pc : ℚ)
    (hc : commodityAllowed req.commodity = true)
    (hp : 0 < req.previous_price)
    (hpc : pc = (req.predicted_price - req.previous_price) / req.previous_price * 100) :
    (10 < pc → ∃ out, get_recommendations req = .ok out ∧
      out.action_type = "sell" ∧ out.confidence = "high") ∧
    (5 < pc ∧ pc ≤ 10 → ∃ out, get_recommendations req = .ok out ∧
      out.action_type = "sell" ∧ out.confidence = "medium") ∧
    (pc < -10 → ∃ out, get_recommendations req = .ok out ∧
      out.action_type = "hold" ∧ out.confidence = "high") ∧
    (-10 ≤ pc ∧ pc < -5 → ∃ out, get_recommendations req = .ok out ∧
      out.action_type = "hold" ∧ out.confidence = "medium") ∧
    (-5 ≤ pc ∧ pc ≤ 5 → ∃ out, get_recommendations req = .ok out ∧
      out.action_type = "hold" ∧ out.confidence = "medium") := by
  simp only [get_recommendations]
  rw [if_pos hc, if_neg (not_le.mpr hp)]
  rw [← hpc]
  refine ⟨?_, ?_, ?_, ?_, ?_⟩
  · intro h
    rw [if_pos h]
    exact ⟨_, rfl, rfl, rfl⟩
  · rintro ⟨h1, h2⟩
    rw [if_neg (not_lt.mpr h2), if_pos h1]
    exact ⟨_, rfl, rfl, rfl⟩
  · intro h
    rw [if_neg (by linarith : ¬ (10:ℚ) < pc), if_neg (by linarith : ¬ (5:ℚ) < pc),
      if_pos h]
    exact ⟨_, rfl, rfl, rfl⟩
  · rintro ⟨h1, h2⟩
    rw [if_neg (by linarith : ¬ (10:ℚ) < pc), if_neg (by linarith : ¬ (5:ℚ) < pc),
      if_neg (not_lt.mpr h1), if_pos h2]
    exact ⟨_, rfl, rfl, rfl⟩
  · rintro ⟨h1, h2⟩
    rw [if_neg (by linarith : ¬ (10:ℚ) < pc), if_neg (not_lt.mpr h2),
      if_neg (by linarith : ¬ pc < (-10:ℚ)), if_neg (not_lt.mpr h1)]
    exact ⟨_, rfl, rfl, rfl⟩

theorem C1_witness :
    ∃ out, get_recommendations { commodity := "cabbage", market := "Wakulima",
                                 admin1 := "Nairobi", predicted_price := 120,
                                 previous_price := 100, pricetype := "retail" } = .ok out ∧
      out.action_type = "sell" ∧ out.confidence = "high" :=
  (C1_recommendation_bands _ 20 (by decide) (by norm_num) (by norm_num)).1 (by norm_num)


/-- C4 counterexample: there is no alias table, so encoding the commodity
"Onions" does not resolve identically to encoding "onion": the former is
rejected by the commodity gate while the latter is accepted and encoded. -/
theorem C4_counterexample :
    commodityAllowed "Onions" = false ∧ commodityAllowed "onion" = true ∧
      encode_commodity ["Onion"] "Onions" = .error .unsupportedCommodity ∧
      encode_commodity ["Onion"] "onion" = .ok 0 := by
  refine ⟨by decide, by decide, ?_, ?_⟩
  · unfold encode_commodity
    rw [if_neg (by decide)]
  · unfold encode_commodity
    rw [if_pos (by decide)]
    rfl

/-- C4 amended: commodity identity passes through no alias table; it is decided
by trimming and lower-casing alone, so plural and synonym forms are rejected as
unsupported, while any input whose trimmed lowercase form is canonical is never
rejected as unsupported. -/
theorem C4_no_alias_table (vocab : List String) :
    encode_commodity vocab "Onions" = .error .unsupportedCommodity ∧
      encode_commodity vocab "tomato" = .error .unsupportedCommodity ∧
      encode_commodity vocab "irish potato" = .error .unsupportedCommodity ∧
      ∀ c : String, pyLower (pyStrip c) ∈ ALLOWED_COMMODITIES →
        encode_commodity vocab c ≠ .error .unsupportedCommodity := by
  refine ⟨?_, ?_, ?_, ?_⟩
  · unfold encode_commodity
    rw [if_neg (by decide)]
  · unfold encode_commodity
    rw [if_neg (by decide)]
  · unfold encode_commodity
    rw [if_neg (by decide)]
  · intro c hmem
    unfold encode_commodity
    rw [if_pos (by unfold commodityAllowed; simpa using hmem)]
    cases h : vocab.indexOf? (pyTitle (pyStrip c)) <;> simp

theorem C4_witness :
    encode_commodity ["Onion"] "Onions" = Except.error ApiError.unsupportedCommodity ∧
      encode_commodity ["Onion"] " ONION " ≠ Except.error ApiError.unsupportedCommodity :=
  ⟨(C4_no_alias_table ["Onion"]).1,
    (C4_no_alias_table ["Onion"]).2.2.2 " ONION " (by decide)⟩

/-- C5 counterexample: normalization performs no case-insensitive vocabulary
matching for market names: with a trained vocabulary containing "Gikomba", the
input "gikomba" is kept verbatim and the strict encode rejects it. -/
theorem C5_counterexample :
    (normalize_input { date := "2025-12-05", admin1 := "Nairobi", market := "gikomba",
                       commodity := "tomatoes", pricetype := "retail",
                       previous_month_price := 58 }).2.1 = "gikomba" ∧
      build_feature_vector
          { feature_columns := ["price_lag_1", "market"],
            categorical_columns := ["market"],
            classes := fun col => if col = "market" then ["Gikomba"] else [] }
          { date := "2025-12-05", admin1 := "Nairobi", market := "gikomba",
            commodity := "tomatoes", pricetype := "retail",
            previous_month_price := 58 } =
        .error (.unknownCategoryValue "market") := by
  constructor
  · rfl
  · rfl

/-- C5 amended: normalization keeps market and admin1 as the verbatim trimmed
strings — no case-insensitive matching against the vocabulary — and the strict
encode then succeeds exactly on values matching the vocabulary's exact casing. -/
theorem C5_market_verbatim (req : PredictRequest) :
    (normalize_input req).2.1 = pyStrip req.market ∧
      (normalize_input req).2.2.1 = pyStrip req.admin1 ∧
      ∀ vocab : List String,
        ((transform vocab (.str (pyStrip req.market))).isSome = true ↔
          pyStrip req.market ∈ vocab) := by
  refine ⟨rfl, rfl, ?_⟩
  intro vocab
  unfold transform
  rw [Option.isSome_iff_ne_none]
  constructor
  · intro h
    by_contra hmem
    exact h (List.indexOf?_eq_none_iff.mpr fun x hx => by
      intro hbeq
      exact hmem (by rwa [eq_of_beq hbeq] at hx))
  · intro hmem hnone
    rcases List.indexOf?_eq_none_iff.mp hnone _ hmem (beq_self_eq_true _) with ⟨⟩


/-- Pointwise evaluation of the interpolation at an index with known floor. -/
lemma interpAt_eval {s : List ℚ} {i : ℚ} {k : ℕ} {a b : ℚ} (hk : ⌊i⌋ = (k : ℤ))
    (ha : s.getD k 0 = a) (hb : s.getD (k + 1) (s.getD k 0) = b) :
    interpAt s i = a + (i - (k : ℚ)) * (b - a) := by
  unfold interpAt
  rw [hk, Int.toNat_natCast, hb, ha]

/-- C2 counterexample: the interval need not contain the mean. For the member
prediction multiset {0, 100×20} (21 members) the 5th percentile is 100 while
the mean is 2000/21 < 100, so `low ≤ mean` fails. -/
theorem C2_counterexample :
    ¬ ((rf_confidence [0, 100, 100, 100, 100, 100, 100, 100, 100, 100, 100,
          100, 100, 100, 100, 100, 100, 100, 100, 100, 100]).low ≤
        (rf_confidence [0, 100, 100, 100, 100, 100, 100, 100, 100, 100, 100,
          100, 100, 100, 100, 100, 100, 100, 100, 100, 100]).mean) := by
  have hsorted : List.Sorted (· ≤ ·)
      ([0, 100, 100, 100, 100, 100, 100, 100, 100, 100, 100,
        100, 100, 100, 100, 100, 100, 100, 100, 100, 100] : List ℚ) := by
    norm_num [List.sorted_cons]
  have hlow : (rf_confidence [0, 100, 100, 100, 100, 100, 100, 100, 100, 100, 100,
      100, 100, 100, 100, 100, 100, 100, 100, 100, 100]).low = 100 := by
    show percentile _ 5 = 100
    unfold percentile
    rw [List.Sorted.insertionSort_eq hsorted]
    have hidx : (5 : ℚ) * ((([0, 100, 100, 100, 100, 100, 100, 100, 100, 100, 100,
        100, 100, 100, 100, 100, 100, 100, 100, 100, 100] : List ℚ).length : ℚ) - 1) / 100
        = 1 := by
      norm_num
    rw [hidx, interpAt_eval (k := 1) (a := 100) (b := 100) (by norm_num [Int.floor_eq_iff])
      (by simp [List.getD]) (by simp [List.getD])]
    norm_num
  have hmean : (rf_confidence [0, 100, 100, 100, 100, 100, 100, 100, 100, 100, 100,
      100, 100, 100, 100, 100, 100, 100, 100, 100, 100]).mean = 2000/21 := by
    show List.sum _ / _ = (2000 : ℚ)/21
    norm_num
  rw [hlow, hmean]
  norm_num

/-- C2 amended: for every member prediction multiset the interval is ordered,
`low ≤ high`, and the reported coverage is the hard-coded constant 0.90; the
stronger `low ≤ mean ≤ high` of the claim fails in general (see the
counterexample). -/
theorem C2_interval_ordered (preds : List ℚ) :
    (rf_confidence preds).low ≤ (rf_confidence preds).high ∧
      (rf_confidence preds).confidence = 9/10 :=
  ⟨percentile_mono preds (by norm_num) (by norm_num) (by norm_num), rfl⟩

/-- C8 counterexample: over the member predictions {10, 20, ..., 100} the 95th
percentile under the code's linear interpolation is 95.5, not the 94.5 the
claim asserts. -/
theorem C8_counterexample :
    percentile [10, 20, 30, 40, 50, 60, 70, 80, 90, 100] 95 ≠ 189/2 := by
  have hsorted : List.Sorted (· ≤ ·)
      ([10, 20, 30, 40, 50, 60, 70, 80, 90, 100] : List ℚ) := by
    norm_num [List.sorted_cons]
  have h : percentile [10, 20, 30, 40, 50, 60, 70, 80, 90, 100] 95 = 191/2 := by
    unfold percentile
    rw [List.Sorted.insertionSort_eq hsorted]
    have hidx : (95 : ℚ) * ((([10, 20, 30, 40, 50, 60, 70, 80, 90, 100] : List ℚ).length : ℚ)
        - 1) / 100 = 171/20 := by
      norm_num
    rw [hidx, interpAt_eval (k := 8) (a := 90) (b := 100) (by norm_num [Int.floor_eq_iff])
      (by simp [List.getD]) (by simp [List.getD])]
    norm_num
  rw [h]
  norm_num

/-- C8 amended: percentile interpolation is linear between order statistics at
index p·(n−1)/100; over {10, 20, ..., 100} the 5th percentile is
10 + 0.45×(20−10) = 14.5 and the 95th percentile is 90 + 0.55×(100−90) = 95.5. -/
theorem C8_percentile_values :
    percentile [10, 20, 30, 40, 50, 60, 70, 80, 90, 100] 5 = 29/2 ∧
      percentile [10, 20, 30, 40, 50, 60, 70, 80, 90, 100] 95 = 191/2 := by
  have hsorted : List.Sorted (· ≤ ·)
      ([10, 20, 30, 40, 50, 60, 70, 80, 90, 100] : List ℚ) := by
    norm_num [List.sorted_cons]
  constructor
  · unfold percentile
    rw [List.Sorted.insertionSort_eq hsorted]
    have hidx : (5 : ℚ) * ((([10, 20, 30, 40, 50, 60, 70, 80, 90, 100] : List ℚ).length : ℚ)
        - 1) / 100 = 9/20 := by
      norm_num
    rw [hidx, interpAt_eval (k := 0) (a := 10) (b := 20) (by norm_num [Int.floor_eq_iff])
      (by simp [List.getD]) (by simp [List.getD])]
    norm_num
  · unfold percentile
    rw [List.Sorted.insertionSort_eq hsorted]
    have hidx : (95 : ℚ) * ((([10, 20, 30, 40, 50, 60, 70, 80, 90, 100] : List ℚ).length : ℚ)
        - 1) / 100 = 171/20 := by
      norm_num
    rw [hidx, interpAt_eval (k := 8) (a := 90) (b := 100) (by norm_num [Int.floor_eq_iff])
      (by simp [List.getD]) (by simp [List.getD])]
    norm_num


/-- A successful threshold lookup implies the commodity passes the allowed-set
gate. -/
lemma threshold_lookup_contains {x : String} {t : ℕ}
    (h : threshold_lookup x = some t) : ALLOWED_COMMODITIES.contains x = true := by
  rcases threshold_lookup_cases h with ⟨rfl, _⟩ | ⟨rfl, _⟩ | ⟨rfl, _⟩ | ⟨rfl, _⟩ | ⟨rfl, _⟩ <;>
    decide

/-- C7 amended: for every supported commodity (threshold `t`), region and
radius, the micro-market endpoint synthesizes exactly the three deterministic
markets — prices 0.9·t, 1.1·t and 0.95·t exactly (the 2-decimal rounding is
the identity there), distances 0, `round(0.3·r, 1)` and `round(0.6·r, 1)` —
derives average/min/max/spread over those three prices, flags high variance
exactly when the spread t/5 exceeds 10, and recommends the first-listed
Central Market unconditionally. -/
theorem C7_micro_market (c region : String) (r : ℚ) (t : ℕ)
    (h : threshold_lookup (pyLower (pyStrip c)) = some t) :
    get_micro_market_forecast c region r = .ok
      { commodity := c, region := region,
        nearby_markets :=
          [{ market_name := region ++ " Central Market", distance_km := 0,
             estimated_price := (t : ℚ) * (9/10), market_type := "wholesale" },
           { market_name := region ++ " Retail Hub",
             distance_km := pyRound (r * (3/10)) 1,
             estimated_price := (t : ℚ) * (11/10), market_type := "retail" },
           { market_name := "Near " ++ region ++ " Market",
             distance_km := pyRound (r * (6/10)) 1,
             estimated_price := (t : ℚ) * (95/100), market_type := "mixed" }],
        average_price := pyRound ((t : ℚ) * (59/20) / 3) 2,
        min_price := (t : ℚ) * (9/10),
        max_price := (t : ℚ) * (11/10),
        price_variance := (t : ℚ) / 5,
        recommended_market := region ++ " Central Market",
        market_comparison :=
          if 10 < (t : ℚ) / 5 then
            "High price variance (" ++ fmtQ ((t : ℚ) / 5) ++
              " KES) across nearby markets. Shopping around could save money."
          else "Relatively stable prices across nearby markets." } := by
  have ht0 : (0 : ℚ) ≤ (t : ℚ) := Nat.cast_nonneg t
  have h9 : pyRound ((t : ℚ) * (9/10)) 2 = (t : ℚ) * (9/10) :=
    pyRound_eval (z := 90 * (t : ℤ)) (by push_cast; ring)
  have h11 : pyRound ((t : ℚ) * (11/10)) 2 = (t : ℚ) * (11/10) :=
    pyRound_eval (z := 110 * (t : ℤ)) (by push_cast; ring)
  have h95 : pyRound ((t : ℚ) * (95/100)) 2 = (t : ℚ) * (95/100) :=
    pyRound_eval (z := 95 * (t : ℤ)) (by push_cast; ring)
  have hfifth : pyRound ((t : ℚ) / 5) 2 = (t : ℚ) / 5 :=
    pyRound_eval (z := 20 * (t : ℤ)) (by push_cast; ring)
  have hmin : min (min ((t : ℚ) * (9/10)) ((t : ℚ) * (11/10))) ((t : ℚ) * (95/100))
      = (t : ℚ) * (9/10) := by
    rw [show min ((t : ℚ) * (9/10)) ((t : ℚ) * (11/10)) = (t : ℚ) * (9/10) from
      min_eq_left (by linarith)]
    exact min_eq_left (by linarith)
  have hmax : max (max ((t : ℚ) * (9/10)) ((t : ℚ) * (11/10))) ((t : ℚ) * (95/100))
      = (t : ℚ) * (11/10) := by
    rw [show max ((t : ℚ) * (9/10)) ((t : ℚ) * (11/10)) = (t : ℚ) * (11/10) from
      max_eq_right (by linarith)]
    exact max_eq_left (by linarith)
  have hbase : thresholdGetD (pyLower (pyStrip c)) 50 = t := by
    unfold thresholdGetD
    rw [h]
    rfl
  unfold get_micro_market_forecast
  rw [if_pos (by unfold commodityAllowed; exact threshold_lookup_contains h), hbase]
  simp only [List.map, pyMin, pyMax, List.foldl, List.sum_cons, List.sum_nil,
    List.length_cons, List.length_nil]
  rw [h9, h11, h95, hmin, hmax]
  have hdiff : (t : ℚ) * (11/10) - (t : ℚ) * (9/10) = (t : ℚ) / 5 := by ring
  rw [hdiff, hfifth]
  have havg : ((t : ℚ) * (9/10) + ((t : ℚ) * (11/10) + ((t : ℚ) * (95/100) + 0)))
      / ((0 + 1 + 1 + 1 : ℕ) : ℚ) = (t : ℚ) * (59/20) / 3 := by
    push_cast
    ring
  rw [havg, h9, h11]
  simp only [List.headD_cons]


/-- C7 counterexample: the synthesized distances are rounded to one decimal,
so for radius 1.11 the Retail Hub sits at 0.3 km, not 0.3×1.11 = 0.333 km,
and the third market at 0.7 km, not 0.666 km. -/
theorem C7_counterexample :
    Except.map (fun o => o.nearby_markets.map (·.distance_km))
        (get_micro_market_forecast "tomatoes" "Nairobi" (111/100)) =
      .ok [0, 3/10, 7/10] ∧
      (3/10 : ℚ) ≠ 111/100 * (3/10) ∧ (7/10 : ℚ) ≠ 111/100 * (6/10) := by
  refine ⟨?_, by norm_num, by norm_num⟩
  unfold get_micro_market_forecast
  rw [if_pos (by decide)]
  simp only [Except.map, List.map]
  rw [pyRound_eval_low (f := 3) (by norm_num) (by norm_num),
    pyRound_eval_high (f := 6) (by norm_num) (by norm_num)]
  norm_num


theorem C7_witness :
    get_micro_market_forecast "tomatoes" "Nairobi" 30 = .ok
      { commodity := "tomatoes", region := "Nairobi",
        nearby_markets :=
          [{ market_name := "Nairobi Central Market", distance_km := 0,
             estimated_price := 288/5, market_type := "wholesale" },
           { market_name := "Nairobi Retail Hub", distance_km := 9,
             estimated_price := 352/5, market_type := "retail" },
           { market_name := "Near Nairobi Market", distance_km := 18,
             estimated_price := 304/5, market_type := "mixed" }],
        average_price := 6293/100, min_price := 288/5, max_price := 352/5,
        price_variance := 64/5, recommended_market := "Nairobi Central Market",
        market_comparison :=
          "High price variance (12.8 KES) across nearby markets. Shopping around could save money." } := by
  rw [C7_micro_market "tomatoes" "Nairobi" 30 64 (by decide)]
  push_cast
  rw [pyRound_eval (x := (30 : ℚ) * (3/10)) (z := 90) (by norm_num),
    pyRound_eval (x := (30 : ℚ) * (6/10)) (z := 180) (by norm_num),
    pyRound_eval_low (x := (64 : ℚ) * (59/20) / 3) (f := 6293) (by norm_num) (by norm_num),
    if_pos (show (10 : ℚ) < (64 : ℚ)/5 by norm_num),
    fmtQ_eval (m := 1280) (by norm_num)]
  simp only [Except.ok.injEq, MicroOut.mk.injEq, NearbyMarket.mk.injEq, List.cons.injEq,
    and_true, true_and]
  norm_num
  decide


/-- Unfolding `List.lookup` one step on string-keyed data. -/
lemma lookup_cons (a k : String) (b : FVal) (es : List (String × FVal)) :
    List.lookup a ((k, b) :: es) = if a = k then some b else List.lookup a es := by
  by_cases h : a = k
  · simp [List.lookup, h]
  · simp [List.lookup, h, show (a == k) = false from beq_eq_false_iff_ne.mpr h]

/-- `setKey` updates exactly the stored keys: lookups of other keys are
untouched, and a stored key reads back the new value. -/
lemma lookup_setKey (d : List (String × FVal)) (c k : String) (v : FVal) :
    (setKey d c v).lookup k =
      if k = c ∧ (d.lookup c).isSome then some v else d.lookup k := by
  induction d with
  | nil => simp [setKey]
  | cons p d ih =>
    obtain ⟨a, w⟩ := p
    simp only [setKey, List.map_cons]
    by_cases hac : a = c
    · subst hac
      by_cases hk : k = a
      · subst hk
        simp [lookup_cons]
      · simp only [setKey] at ih
        simp [lookup_cons, hk, ih]
    · by_cases hk : k = a
      · subst hk
        have hkc : ¬ k = c := hac
        simp [lookup_cons, hkc, hac]
      · have hca : ¬ c = a := fun hh => hac hh.symm
        simp only [setKey] at ih
        rw [if_neg hac, lookup_cons, if_neg hk, ih, lookup_cons, if_neg hca,
          lookup_cons, if_neg hk]


/-- The column's value in `d` falls outside its trained vocabulary (the
encoding loop would raise `UnknownCategoryValue` on it). -/
def failsIn (art : Artifacts) (c : String) (d : List (String × FVal)) : Prop :=
  ∃ w, d.lookup c = some w ∧ transform (art.classes c) w = none

/-- First-failure predicate of the builder at the request's initial data. -/
def catFails (art : Artifacts) (req : PredictRequest) (c : String) : Prop :=
  failsIn art c (initData req)

/-- The value each key holds after the encoding loop: encoded when the key is a
categorical column whose transform succeeds, otherwise unchanged. -/
def encLookup (art : Artifacts) (cols : List String) (d : List (String × FVal))
    (k : String) : Option FVal :=
  (d.lookup k).map fun w =>
    if k ∈ cols then
      match transform (art.classes k) w with
      | some code => FVal.num code
      | none => w
    else w

/-- Characterization of the encoding loop: either it reports the first column
whose present value fails to encode, or it succeeds, no declared column fails,
and every key holds its (possibly encoded) value. -/
lemma encodeCats_spec (art : Artifacts) :
    ∀ (cols : List String) (d : List (String × FVal)), cols.Nodup →
      (∃ col l1 l2, cols = l1 ++ col :: l2 ∧ (∀ c ∈ l1, ¬ failsIn art c d) ∧
        failsIn art col d ∧
        encodeCats art cols d = .error (.unknownCategoryValue col)) ∨
      (∃ e, encodeCats art cols d = .ok e ∧ (∀ c ∈ cols, ¬ failsIn art c d) ∧
        ∀ k, e.lookup k = encLookup art cols d k) := by
  intro cols
  induction cols with
  | nil =>
    intro d _
    right
    refine ⟨d, rfl, by simp, ?_⟩
    intro k
    unfold encLookup
    cases d.lookup k <;> simp
  | cons col rest ih =>
    intro d hnd
    have hndr : rest.Nodup := (List.nodup_cons.mp hnd).2
    have hnotin : col ∉ rest := (List.nodup_cons.mp hnd).1
    cases hcol : d.lookup col with
    | none =>
      have hrec : encodeCats art (col :: rest) d = encodeCats art rest d := by
        simp only [encodeCats, hcol]
      rcases ih d hndr with ⟨col', l1, l2, heq, hok, hfail, herr⟩ | ⟨e, henc, hnofail, hlook⟩
      · left
        refine ⟨col', col :: l1, l2, by rw [heq]; rfl, ?_, hfail, by rw [hrec]; exact herr⟩
        intro c hc
        rcases List.mem_cons.mp hc with rfl | hc
        · rintro ⟨w, hw, _⟩
          rw [hcol] at hw
          exact Option.noConfusion hw
        · exact hok c hc
      · right
        refine ⟨e, by rw [hrec]; exact henc, ?_, ?_⟩
        · intro c hc
          rcases List.mem_cons.mp hc with rfl | hc
          · rintro ⟨w, hw, _⟩
            rw [hcol] at hw
            exact Option.noConfusion hw
          · exact hnofail c hc
        · intro k
          rw [hlook k]
          unfold encLookup
          by_cases hk : k = col
          · subst hk
            rw [hcol]
            rfl
          · cases hdk : d.lookup k with
            | none => rfl
            | some w =>
              simp only [Option.map_some']
              by_cases hmem : k ∈ rest
              · rw [if_pos hmem, if_pos (List.mem_cons_of_mem _ hmem)]
              · rw [if_neg hmem, if_neg (by simp [List.mem_cons, hk, hmem])]
    | some w =>
      cases htr : transform (art.classes col) w with
      | none =>
        left
        exact ⟨col, [], rest, by simp, by simp, ⟨w, hcol, htr⟩,
          by simp only [encodeCats, hcol, htr]⟩
      | some code =>
        have hrec : encodeCats art (col :: rest) d
            = encodeCats art rest (setKey d col (.num code)) := by
          simp only [encodeCats, hcol, htr]
        have hset : ∀ k, (setKey d col (.num code)).lookup k
            = if k = col then some (.num code) else d.lookup k := by
          intro k
          rw [lookup_setKey]
          by_cases hk : k = col
          · simp [hk, hcol]
          · simp [hk]
        have hnofail_col : ¬ failsIn art col d := by
          rintro ⟨w', hw', htr'⟩
          rw [hcol] at hw'
          injection hw' with hw'
          subst hw'
          rw [htr] at htr'
          exact Option.noConfusion htr'
        rcases ih (setKey d col (.num code)) hndr with
          ⟨col', l1, l2, heq, hok, hfail, herr⟩ | ⟨e, henc, hnofail, hlook⟩
        · left
          have hcol'mem : col' ∈ rest := by
            rw [heq]
            exact List.mem_append_right _ (List.mem_cons_self _ _)
          have hcol'ne : col' ≠ col := fun hh => hnotin (hh ▸ hcol'mem)
          refine ⟨col', col :: l1, l2, by rw [heq]; rfl, ?_, ?_,
            by rw [hrec]; exact herr⟩
          · intro c hc
            rcases List.mem_cons.mp hc with rfl | hc
            · exact hnofail_col
            · have hcr : c ∈ rest := by
                rw [heq]
                exact List.mem_append_left _ hc
              have hcne : c ≠ col := fun hh => hnotin (hh ▸ hcr)
              rintro ⟨w', hw', htr'⟩
              exact hok c hc ⟨w', by rw [hset c, if_neg hcne]; exact hw', htr'⟩
          · obtain ⟨w', hw', htr'⟩ := hfail
            rw [hset col', if_neg hcol'ne] at hw'
            exact ⟨w', hw', htr'⟩
        · right
          refine ⟨e, by rw [hrec]; exact henc, ?_, ?_⟩
          · intro c hc
            rcases List.mem_cons.mp hc with rfl | hc
            · exact hnofail_col
            · have hcne : c ≠ col := fun hh => hnotin (hh ▸ hc)
              rintro ⟨w', hw', htr'⟩
              exact hnofail c hc ⟨w', by rw [hset c, if_neg hcne]; exact hw', htr'⟩
          · intro k
            rw [hlook k]
            unfold encLookup
            by_cases hk : k = col
            · subst hk
              rw [hset k, if_pos rfl, hcol]
              simp only [Option.map_some']
              rw [if_neg hnotin, if_pos (List.mem_cons_self _ _), htr]
            · rw [hset k, if_neg hk]
              cases hdk : d.lookup k with
              | none => rfl
              | some w' =>
                simp only [Option.map_some']
                by_cases hmem : k ∈ rest
                · rw [if_pos hmem, if_pos (List.mem_cons_of_mem _ hmem)]
                · rw [if_neg hmem, if_neg (by simp [List.mem_cons, hk, hmem])]


/-- The value each feature column is expected to hold in the final vector:
the request value (encoded for categorical columns), defaulting to 0 for
columns not explicitly set. -/
def expectedVal (art : Artifacts) (req : PredictRequest) (col : String) : FVal :=
  match (initData req).lookup col with
  | none => .num 0
  | some w =>
    if col ∈ art.categorical_columns then
      match transform (art.classes col) w with
      | some code => .num code
      | none => .num 0
    else w

/-- C9: the builder either fails with `UnknownCategoryValue` on the first
categorical column whose value is outside the trained vocabulary, returning no
partial vector, or returns a vector whose length and order exactly match the
artifact's fixed column list, with the lag slot holding the previous price,
each categorical column holding its integer code, and every column not
explicitly set defaulting to 0. -/
theorem C9_feature_vector (art : Artifacts) (req : PredictRequest)
    (hnd : art.categorical_columns.Nodup) :
    (∃ col l1 l2, build_feature_vector art req = .error (.unknownCategoryValue col) ∧
      art.categorical_columns = l1 ++ col :: l2 ∧
      (∀ c ∈ l1, ¬ catFails art req c) ∧ catFails art req col) ∨
    (∃ v, build_feature_vector art req = .ok v ∧
      v.length = art.feature_columns.length ∧
      v = art.feature_columns.map (expectedVal art req) ∧
      ("price_lag_1" ∉ art.categorical_columns →
        expectedVal art req "price_lag_1" = .num req.previous_month_price) ∧
      (∀ c ∈ art.categorical_columns, ∀ w, (initData req).lookup c = some w →
        ∃ code, transform (art.classes c) w = some code ∧
          expectedVal art req c = .num code)) := by
  rcases encodeCats_spec art art.categorical_columns (initData req) hnd with
    ⟨col, l1, l2, heq, hok, hfail, herr⟩ | ⟨e, henc, hnofail, hlook⟩
  · left
    refine ⟨col, l1, l2, ?_, heq, hok, hfail⟩
    unfold build_feature_vector
    rw [herr]
    rfl
  · right
    refine ⟨art.feature_columns.map (fun col => ((e.lookup col).getD (.num 0))), ?_,
      by simp, ?_, ?_, ?_⟩
    · unfold build_feature_vector
      rw [henc]
      rfl
    · apply List.map_congr_left
      intro col _
      rw [hlook col]
      unfold encLookup expectedVal
      cases hdk : (initData req).lookup col with
      | none => rfl
      | some w =>
        simp only [Option.map_some', Option.getD_some]
        by_cases hmem : col ∈ art.categorical_columns
        · rw [if_pos hmem, if_pos hmem]
          cases htr : transform (art.classes col) w with
          | none => exact absurd ⟨w, hdk, htr⟩ (hnofail col hmem)
          | some code => rfl
        · rw [if_neg hmem, if_neg hmem]
    · intro hnot
      unfold expectedVal
      have hlag : (initData req).lookup "price_lag_1"
          = some (.num req.previous_month_price) := rfl
      rw [hlag]
      simp [hnot]
    · intro c hc w hw
      rcases hx : transform (art.classes c) w with _ | code
      · exact absurd ⟨w, hw, hx⟩ (hnofail c hc)
      · refine ⟨code, rfl, ?_⟩
        unfold expectedVal
        rw [hw]
        simp [hc, hx]

/-- Concrete artifact fixture used to exercise the builder. -/
def artW : Artifacts :=
  { feature_columns := ["price_lag_1", "commodity", "month"]
    categorical_columns := ["commodity"]
    classes := fun col => if col = "commodity" then ["Cabbage", "Tomatoes"] else [] }

/-- Concrete request fixture used to exercise the builder. -/
def reqW : PredictRequest :=
  { date := "2025-12-05", admin1 := "Nairobi", market := "Gikomba",
    commodity := " tomatoes ", pricetype := "retail", previous_month_price := 58 }

theorem C9_witness :
    artW.categorical_columns.Nodup ∧
      ((∃ col l1 l2, build_feature_vector artW reqW = .error (.unknownCategoryValue col) ∧
        artW.categorical_columns = l1 ++ col :: l2 ∧
        (∀ c ∈ l1, ¬ catFails artW reqW c) ∧ catFails artW reqW col) ∨
      (∃ v, build_feature_vector artW reqW = .ok v ∧
        v.length = artW.feature_columns.length ∧
        v = artW.feature_columns.map (expectedVal artW reqW) ∧
        ("price_lag_1" ∉ artW.categorical_columns →
          expectedVal artW reqW "price_lag_1" = .num reqW.previous_month_price) ∧
        (∀ c ∈ artW.categorical_columns, ∀ w, (initData reqW).lookup c = some w →
          ∃ code, transform (artW.classes c) w = some code ∧
            expectedVal artW reqW c = .num code))) :=
  ⟨by decide, C9_feature_vector artW reqW (by decide)⟩

end PriceApi
